import Mathlib

/-!
Verification of the MCP-File-Manager repository: a shallow embedding of
`search_server.py` (sandboxed glob search service) and
`mcp_files_search_client.py` (intent router and show resolver), with
theorems settling the frozen claims about the specification.

Modelling conventions:
* Python strings are Lean `String`s; `str.lower()` is modelled char-wise
  (`pyLower`), covering the ASCII fragment that `Char.toLower` handles.
* The filesystem is a finite tree (`DirTree`); `os.walk(root, topdown=True)`
  is modelled by structural recursion over that tree, and `os.path.join`
  by interposing a single separator (`pjoin`).
* Fallible parsing (`json.loads`) returns `Option`.
* Several scanners take an explicit fuel argument so that every definition
  is structurally recursive and hence kernel-reducible on closed inputs;
  the fuel passed at each entry point (`length + 1` or similar) strictly
  exceeds the number of recursive calls, each of which consumes input.
-/

namespace MCPFM

/-- Model of Python `str.lower()` (ASCII fragment): lowercase every char. -/
def pyLower (s : String) : String := String.mk (s.data.map Char.toLower)

/-! ## fnmatch: shell-glob matching (`*`, `?`, bracket classes)

Model of Python's `fnmatch` module as used by `search_server.py`:
the pattern is translated to a token list and matched against the
candidate name.  (`fnmatch.fnmatch` additionally applies
`os.path.normcase` to both arguments, which is the identity on POSIX and
a lowercasing on Windows; the server lowercases both sides itself, so the
composite relation is the same either way.) -/

/-- One compiled glob token. -/
inductive Tok where
  | star
  | any
  | lit (c : Char)
  | cls (neg : Bool) (cs : List Char)
deriving Repr, DecidableEq

/-- Scan to the closing `]` of a bracket expression: returns the chars
before it and the chars after it, or `none` if there is no closing `]`. -/
def scanToClose : List Char → Option (List Char × List Char)
  | [] => none
  | c :: rest =>
    if c = ']' then some ([], rest)
    else
      match scanToClose rest with
      | some (body, after) => some (c :: body, after)
      | none => none

/-- After a leading `[` (and optional `!`), the first character is a
literal member even if it is `]`; then scan for the closing `]`. -/
def splitBracketCore (cs : List Char) : Option (List Char × List Char) :=
  match cs with
  | [] => none
  | c0 :: t =>
    match scanToClose t with
    | some (body, after) => some (c0 :: body, after)
    | none => none

/-- Parse a bracket expression following `[`: negation flag, class
members, and the remaining pattern; `none` when the bracket is unclosed
(in which case `[` is matched literally, as in `fnmatch.translate`). -/
def splitBracket (cs : List Char) : Option (Bool × List Char × List Char) :=
  match cs with
  | '!' :: rest =>
    match splitBracketCore rest with
    | some (cls, after) => some (true, cls, after)
    | none => none
  | _ =>
    match splitBracketCore cs with
    | some (cls, after) => some (false, cls, after)
    | none => none

/-- Character-class membership: `a-b` denotes a code-point range, other
characters are literal members (a trailing `-` is literal). -/
def charInClass (c : Char) : List Char → Bool
  | lo :: '-' :: hi :: rest => (lo ≤ c && c ≤ hi) || charInClass c rest
  | x :: rest => (x == c) || charInClass c rest
  | [] => false

/-- Fuel-indexed pattern compiler (fuel strictly exceeds pattern length,
and every recursive call consumes at least one pattern character). -/
def translateF : Nat → List Char → List Tok
  | 0, _ => []
  | _ + 1, [] => []
  | fuel + 1, c :: p =>
    if c = '*' then Tok.star :: translateF fuel p
    else if c = '?' then Tok.any :: translateF fuel p
    else if c = '[' then
      match splitBracket p with
      | some (neg, cls, rest) => Tok.cls neg cls :: translateF fuel rest
      | none => Tok.lit '[' :: translateF fuel p
    else Tok.lit c :: translateF fuel p

/-- Compile a glob pattern to tokens (mirrors `fnmatch.translate`). -/
def translateGlob (p : List Char) : List Tok := translateF (p.length + 1) p

/-- Fuel-indexed token matcher; fuel strictly exceeds
`tokens + characters`, and every recursive call shrinks that sum. -/
def tmatchF : Nat → List Tok → List Char → Bool
  | 0, _, _ => false
  | _ + 1, [], [] => true
  | _ + 1, [], _ :: _ => false
  | fuel + 1, Tok.star :: p, [] => tmatchF fuel p []
  | fuel + 1, Tok.star :: p, c :: n =>
    tmatchF fuel p (c :: n) || tmatchF fuel (Tok.star :: p) n
  | _ + 1, Tok.any :: _, [] => false
  | fuel + 1, Tok.any :: p, _ :: n => tmatchF fuel p n
  | _ + 1, Tok.lit _ :: _, [] => false
  | fuel + 1, Tok.lit a :: p, c :: n => (a == c) && tmatchF fuel p n
  | _ + 1, Tok.cls _ _ :: _, [] => false
  | fuel + 1, Tok.cls neg cls :: p, c :: n =>
    (charInClass c cls != neg) && tmatchF fuel p n

/-- Model of `fnmatchcase(name, pattern)`: match `name` against the glob `pattern`. -/
def fnmatchcase (name pattern : String) : Bool :=
  tmatchF (pattern.length + name.length + 1) (translateGlob pattern.data) name.data

/-- The engine's match relation (`search_server.py` lines 63–82):
both the pattern and the candidate name are lowercased, then compared
with shell-glob semantics. -/
def engineMatch (pattern name : String) : Bool :=
  fnmatchcase (pyLower name) (pyLower pattern)

/-! ## Filesystem model and the recursive walk (`_perform_search`) -/

mutual
/-- A directory's contents: its file names and its subdirectories.
The list order stands in for the (unspecified) order in which
`os.walk` reports entries at one level. -/
inductive DirTree where
  | node (files : List String) (dirs : DirList)

/-- A list of named subdirectories. -/
inductive DirList where
  | dnil
  | dcons (name : String) (tree : DirTree) (rest : DirList)
end

/-- Model of `os.path.join(root, name)`: interpose a single path separator
(the platform's `os.sep`; written `/` throughout this model). -/
def pjoin (root name : String) : String := root ++ "/" ++ name

/-- Model of Python `s.startswith(c)` for a single character `c`
(computed on the char list so that it is kernel-reducible). -/
def strHeadIs (s : String) (c : Char) : Bool :=
  match s.data with
  | [] => false
  | a :: _ => a == c

/-- The hidden-entry filter applied at each level of `_perform_search`:
an entry survives pruning iff `include_hidden` is set or its name does
not start with `.`. -/
def keepEntry (include_hidden : Bool) (name : String) : Bool :=
  include_hidden || !(strHeadIs name '.')

/-- The names of a subdirectory list. -/
def dirNames : DirList → List String
  | .dnil => []
  | .dcons d _ rest => d :: dirNames rest

mutual
/-- The walk of `_perform_search` over one directory (`os.walk(root, topdown=True)`,
lines 67–82): prune hidden entries when `include_hidden` is false
(`dirs[:] = ...` prunes the recursion too), record matching file names
then matching subdirectory names at this level, then recurse into the
surviving subdirectories in order. -/
def walkTree (pattern : String) (include_hidden : Bool) (root : String) :
    DirTree → List String
  | .node files dirs =>
    ((files.filter (keepEntry include_hidden)).filter
        (fun f => engineMatch pattern f)).map (fun f => pjoin root f)
      ++ (((dirNames dirs).filter (keepEntry include_hidden)).filter
            (fun d => engineMatch pattern d)).map (fun d => pjoin root d)
      ++ walkSubdirs pattern include_hidden root dirs
termination_by structural t => t

/-- Recursion of the walk into each surviving subdirectory; a pruned
(hidden) subdirectory is not traversed at all. -/
def walkSubdirs (pattern : String) (include_hidden : Bool) (root : String) :
    DirList → List String
  | .dnil => []
  | .dcons d t rest =>
    (if keepEntry include_hidden d then
        walkTree pattern include_hidden (pjoin root d) t
      else [])
      ++ walkSubdirs pattern include_hidden root rest
termination_by structural l => l
end

/-- Model of `FileSearcherServicer._perform_search(root_dir, pattern, include_hidden)`:
recursive search of one root directory (traversal errors, which the code
logs and swallows, have no counterpart in this total model). -/
def perform_search (root_dir : String) (tree : DirTree)
    (pattern : String) (include_hidden : Bool) : List String :=
  walkTree pattern include_hidden root_dir tree

/-! ## The `SearchFiles` RPC handler -/

/-- Does `sub` occur at the head of `l`? -/
def leadsWith : List Char → List Char → Bool
  | [], _ => true
  | _ :: _, [] => false
  | a :: s, b :: t => a == b && leadsWith s t

/-- Does `sub` occur anywhere in `l`? -/
def hasSubList (sub : List Char) : List Char → Bool
  | [] => sub.isEmpty
  | c :: rest => leadsWith sub (c :: rest) || hasSubList sub rest

/-- Model of Python `sub in s` for strings. -/
def strContainsSub (s sub : String) : Bool := hasSubList sub.data s.data

/-- The `SearchRequest` message: `file_pattern`, optional (explicit-presence)
`base_path_key`, and `include_hidden`. -/
structure SearchRequest where
  file_pattern : String
  base_path_key : Option String
  include_hidden : Bool
deriving Repr, DecidableEq

/-- The `SearchResponse` message; `error_message` is a proto3 string field
whose unset state is the empty string (the client tests it for
truthiness, i.e. non-emptiness). -/
structure SearchResponse where
  found_files : List String
  error_message : String
deriving Repr, DecidableEq

/-- A single quote character (ASCII 39). -/
def sq : String := (Char.ofNat 39).toString

/-- Python `repr` of a plain identifier-like string: single-quoted. -/
def pyStrRepr (s : String) : String := sq ++ s ++ sq

/-- Python `str(list_of_strings)`, e.g. `['docs', 'downloads']`. -/
def pyListRepr (xs : List String) : String :=
  "[" ++ String.intercalate ", " (xs.map pyStrRepr) ++ "]"

/-- Ordered concatenation of per-element results (Python's repeated
`list.extend` over a loop). -/
def concatMap (f : α → List β) : List α → List β
  | [] => []
  | a :: rest => f a ++ concatMap f rest

/-- The sandbox table `ALLOWED_PATHS`: location keys mapped to absolute
root directories, in insertion order.  (The table is built once at
startup from platform known-folder lookups and kept immutable; it is a
parameter of the model.) -/
abbrev SandboxTable := List (String × String)

/-- The filesystem: the directory tree found at a given root path. -/
abbrev FileSystem := String → DirTree

/-- The error message for an unknown location key
(`f"Invalid base path key. Allowed keys are: {list(ALLOWED_PATHS.keys())}"`). -/
def invalidKeyMessage (table : SandboxTable) : String :=
  "Invalid base path key. Allowed keys are: " ++ pyListRepr (table.map Prod.fst)

/-- The global-search branch: walk every table root in order and
concatenate the results (`all_found_files.extend(...)` per root). -/
def globalSearch (table : SandboxTable) (fs : FileSystem)
    (pattern : String) (include_hidden : Bool) : List String :=
  concatMap (fun kv => perform_search kv.2 (fs kv.2) pattern include_hidden) table

/-- Model of `FileSearcherServicer.SearchFiles` (`search_server.py` lines 88–132):
1. lowercase-normalize the key when the field is present;
2. reject patterns containing `..` or starting with `/` or `\`;
3. a truthy key (present and non-empty — Python `if base_path_key:`)
   selects one root, failing when absent from the table;
4. otherwise search every table root. -/
def SearchFiles (table : SandboxTable) (fs : FileSystem)
    (request : SearchRequest) : SearchResponse :=
  let pattern := request.file_pattern
  let include_hidden := request.include_hidden
  let base_path_key : Option String :=
    match request.base_path_key with
    | some k => some (pyLower k)
    | none => none
  if strContainsSub pattern ".." || strHeadIs pattern '/' || strHeadIs pattern '\\' then
    { found_files := [], error_message := "Invalid pattern." }
  else
    match base_path_key with
    | some k =>
      if k.data.isEmpty then
        -- Python truthiness: a present but empty key falls through to
        -- the global-search branch.
        { found_files := globalSearch table fs pattern include_hidden
          error_message := "" }
      else
        match table.find? (fun kv => kv.1 == k) with
        | none =>
          { found_files := [], error_message := invalidKeyMessage table }
        | some kv =>
          { found_files := perform_search kv.2 (fs kv.2) pattern include_hidden
            error_message := "" }
    | none =>
      { found_files := globalSearch table fs pattern include_hidden
        error_message := "" }

/-! ## JSON values and a model of `json.loads`

The client parses the model completion with `json.loads`; this section
models the JSON grammar that function accepts (RFC 8259 as implemented
by Python's `json` module: strict strings, `true`/`false`/`null`,
objects and arrays, numbers kept as their raw lexeme). -/

/-- A parsed JSON value.  Object fields are kept in source order;
`num` stores the validated raw lexeme (no claim inspects numbers). -/
inductive Json where
  | null
  | bool (b : Bool)
  | num (raw : String)
  | str (s : String)
  | arr (elems : List Json)
  | obj (fields : List (String × Json))

/-- JSON insignificant whitespace (space, tab, newline, carriage return). -/
def jsonWs (c : Char) : Bool :=
  c == ' ' || c == '\t' || c == '\n' || c == '\r'

/-- Drop leading JSON whitespace. -/
def skipWs (cs : List Char) : List Char := cs.dropWhile jsonWs

/-- Decode one hex digit. -/
def hexVal (c : Char) : Option Nat :=
  if '0' ≤ c ∧ c ≤ '9' then some (c.toNat - 48)
  else if 'a' ≤ c ∧ c ≤ 'f' then some (c.toNat - 87)
  else if 'A' ≤ c ∧ c ≤ 'F' then some (c.toNat - 70)
  else none

/-- Fuel-indexed body of a JSON string after the opening quote: escapes
are decoded, unescaped control characters are rejected (strict mode).
Fuel strictly exceeds the input length; every call consumes input. -/
def parseStringBodyF : Nat → List Char → Option (List Char × List Char)
  | 0, _ => none
  | _ + 1, [] => none
  | fuel + 1, c :: rest =>
    if c = '"' then some ([], rest)
    else if c = '\\' then
      match rest with
      | [] => none
      | e :: rest2 =>
        let decoded : Option (Char × List Char) :=
          if e = '"' then some ('"', rest2)
          else if e = '\\' then some ('\\', rest2)
          else if e = '/' then some ('/', rest2)
          else if e = 'b' then some ('\x08', rest2)
          else if e = 'f' then some ('\x0c', rest2)
          else if e = 'n' then some ('\n', rest2)
          else if e = 'r' then some ('\r', rest2)
          else if e = 't' then some ('\t', rest2)
          else if e = 'u' then
            match rest2 with
            | h1 :: h2 :: h3 :: h4 :: rest3 =>
              match hexVal h1, hexVal h2, hexVal h3, hexVal h4 with
              | some a, some b, some c3, some d =>
                some (Char.ofNat (((a * 16 + b) * 16 + c3) * 16 + d), rest3)
              | _, _, _, _ => none
            | _ => none
          else none
        match decoded with
        | some (ch, rest3) =>
          match parseStringBodyF fuel rest3 with
          | some (body, after) => some (ch :: body, after)
          | none => none
        | none => none
    else if c.toNat < 32 then none
    else
      match parseStringBodyF fuel rest with
      | some (body, after) => some (c :: body, after)
      | none => none

/-- Parse a JSON string body with adequate fuel. -/
def parseStringBody (cs : List Char) : Option (List Char × List Char) :=
  parseStringBodyF (cs.length + 1) cs

/-- Digit test. -/
def isDigitCh (c : Char) : Bool := '0' ≤ c && c ≤ '9'

/-- Parse a JSON number lexeme (`-?int frac? exp?`), returning the raw
lexeme and the rest. -/
def parseNumber (cs : List Char) : Option (List Char × List Char) :=
  let (sign, cs1) := match cs with
    | '-' :: t => (['-'], t)
    | _ => (([] : List Char), cs)
  let intPart := cs1.takeWhile isDigitCh
  let cs2 := cs1.dropWhile isDigitCh
  let intOk : Bool :=
    match intPart with
    | [] => false
    | ['0'] => true
    | d :: _ => d != '0'
  if intOk then
    let (fracPart, cs3) :=
      match cs2 with
      | '.' :: t =>
        match t.takeWhile isDigitCh with
        | [] => (([] : List Char), none)
        | ds => ('.' :: ds, some (t.dropWhile isDigitCh))
      | _ => (([] : List Char), some cs2)
    match cs3 with
    | none => none
    | some cs3 =>
      let (expPart, cs4) :=
        match cs3 with
        | e :: t =>
          if e = 'e' ∨ e = 'E' then
            let (esign, t2) := match t with
              | '+' :: u => (['+'], u)
              | '-' :: u => (['-'], u)
              | _ => (([] : List Char), t)
            match t2.takeWhile isDigitCh with
            | [] => (([] : List Char), none)
            | ds => (e :: (esign ++ ds), some (t2.dropWhile isDigitCh))
          else (([] : List Char), some cs3)
        | [] => (([] : List Char), some cs3)
      match cs4 with
      | none => none
      | some cs4 => some (sign ++ intPart ++ fracPart ++ expPart, cs4)
  else none

mutual
/-- Fuel-indexed JSON value parser.  Fuel strictly exceeds the input
length at the entry point; every recursive call consumes input. -/
def parseValue : Nat → List Char → Option (Json × List Char)
  | 0, _ => none
  | fuel + 1, cs =>
    match skipWs cs with
    | [] => none
    | c :: rest =>
      if c = '"' then
        match parseStringBody rest with
        | some (body, after) => some (Json.str (String.mk body), after)
        | none => none
      else if c = Char.ofNat 123 then parseObjFields fuel rest []
      else if c = '[' then parseArrElems fuel rest []
      else if c = 't' then
        match rest with
        | 'r' :: 'u' :: 'e' :: after => some (Json.bool true, after)
        | _ => none
      else if c = 'f' then
        match rest with
        | 'a' :: 'l' :: 's' :: 'e' :: after => some (Json.bool false, after)
        | _ => none
      else if c = 'n' then
        match rest with
        | 'u' :: 'l' :: 'l' :: after => some (Json.null, after)
        | _ => none
      else if c = '-' ∨ isDigitCh c then
        match parseNumber (c :: rest) with
        | some (lexeme, after) => some (Json.num (String.mk lexeme), after)
        | none => none
      else none

/-- Parse the remaining fields of an object (after `\x7b`, or after a
`,`), accumulating parsed fields in order. -/
def parseObjFields : Nat → List Char → List (String × Json) →
    Option (Json × List Char)
  | 0, _, _ => none
  | fuel + 1, cs, acc =>
    match skipWs cs with
    | [] => none
    | c :: rest =>
      if c = Char.ofNat 125 ∧ acc.isEmpty then some (Json.obj [], rest)
      else if c = '"' then
        match parseStringBody rest with
        | some (key, afterKey) =>
          match skipWs afterKey with
          | ':' :: afterColon =>
            match parseValue fuel afterColon with
            | some (v, afterVal) =>
              let acc := acc ++ [(String.mk key, v)]
              match skipWs afterVal with
              | ',' :: afterComma => parseObjFields fuel afterComma acc
              | c2 :: afterBrace =>
                if c2 = Char.ofNat 125 then some (Json.obj acc, afterBrace)
                else none
              | [] => none
            | none => none
          | _ => none
        | none => none
      else none

/-- Parse the remaining elements of an array (after `[`, or after a `,`). -/
def parseArrElems : Nat → List Char → List Json → Option (Json × List Char)
  | 0, _, _ => none
  | fuel + 1, cs, acc =>
    match skipWs cs with
    | [] => none
    | c :: rest =>
      if c = ']' ∧ acc.isEmpty then some (Json.arr [], rest)
      else
        match parseValue fuel (c :: rest) with
        | some (v, afterVal) =>
          let acc := acc ++ [v]
          match skipWs afterVal with
          | ',' :: afterComma => parseArrElems fuel afterComma acc
          | ']' :: afterBracket => some (Json.arr acc, afterBracket)
          | _ => none
        | none => none
end

/-- Model of `json.loads`: parse one JSON document, requiring the whole
input to be consumed up to trailing whitespace (`Extra data` otherwise). -/
def json_loads (s : String) : Option Json :=
  match parseValue (s.data.length + 1) s.data with
  | some (j, rest) => if (skipWs rest).isEmpty then some j else none
  | none => none

/-! ## Router plan parsing (`mcp_files_search_client.py` lines 183–196) -/

/-- Index of the first occurrence of `c` (Python `str.find`, with `none`
for `-1`). -/
def listFindIdx (c : Char) : List Char → Option Nat
  | [] => none
  | d :: rest => if d == c then some 0 else (listFindIdx c rest).map (· + 1)

/-- Index of the last occurrence of `c` (Python `str.rfind`). -/
def listRFindIdx (c : Char) : List Char → Option Nat
  | [] => none
  | d :: rest =>
    match listRFindIdx c rest with
    | some i => some (i + 1)
    | none => if d == c then some 0 else none

/-- The full-fallback plan `\x7b"action": "answer", "answer": ai_raw\x7d`. -/
def answerPlan (text : String) : Json :=
  Json.obj [("action", Json.str "answer"), ("answer", Json.str text)]

/-- The robust plan-parsing cascade: parse the whole completion as JSON;
on failure parse the substring from the first `\x7b` to the last `\x7d`
(when both exist in that order); on failure of that, or when no such
braces exist, fall back to an answer plan carrying the raw completion. -/
def parsePlan (ai_raw : String) : Json :=
  match json_loads ai_raw with
  | some plan => plan
  | none =>
    match listFindIdx (Char.ofNat 123) ai_raw.data,
          listRFindIdx (Char.ofNat 125) ai_raw.data with
    | some start, some stop =>
      if start < stop then
        match json_loads (String.mk ((ai_raw.data.drop start).take (stop + 1 - start))) with
        | some plan => plan
        | none => answerPlan ai_raw
      else answerPlan ai_raw
    | _, _ => answerPlan ai_raw

/-! ## The show action (`mcp_files_search_client.py` lines 207–303) -/

/-- A path separator as split by `ntpath.basename`. -/
def isSep (c : Char) : Bool := c == '/' || c == '\\'

/-- Model of `os.path.basename`: everything after the last path separator. -/
def basename (p : String) : String :=
  String.mk ((p.data.reverse.takeWhile (fun c => !isSep c)).reverse)

/-- Model of `_is_simple_filename`: non-empty, no path separators
(`\`, `/`, `:`), no glob metacharacters (`*`, `?`, `[`, `]`). -/
def is_simple_filename (name : String) : Bool :=
  if name.data.isEmpty then false
  else if name.data.any (fun c => c == '\\' || c == '/' || c == ':') then false
  else if name.data.any (fun c => c == '*' || c == '?' || c == '[' || c == ']') then false
  else true

/-- A quote character as used by the recovery regex (`"` or `'`). -/
def isQuote (c : Char) : Bool := c == '"' || c == Char.ofNat 39

/-- Collect the run of non-quote characters up to the next quote;
`none` when no further quote exists. -/
def quotedRunAux : List Char → Option (List Char × List Char)
  | [] => none
  | c :: rest =>
    if isQuote c then some ([], rest)
    else
      match quotedRunAux rest with
      | some (run, after) => some (c :: run, after)
      | none => none

/-- Fuel-indexed scan for the recovery pattern: all non-overlapping
matches of a quote, 1–255 non-quote characters, and a closing quote
(either kind), scanning left to right as `re.findall` does.  Fuel
strictly exceeds the input length; every call consumes input. -/
def findQuotedF : Nat → List Char → List String
  | 0, _ => []
  | _ + 1, [] => []
  | fuel + 1, c :: rest =>
    if isQuote c then
      match quotedRunAux rest with
      | some (run, after) =>
        if 1 ≤ run.length ∧ run.length ≤ 255 then
          String.mk run :: findQuotedF fuel after
        else findQuotedF fuel rest
      | none => findQuotedF fuel rest
    else findQuotedF fuel rest

/-- All quoted substrings of the query, in order
(`re.findall` with the two-quote pattern). -/
def findQuoted (cs : List Char) : List String := findQuotedF (cs.length + 1) cs

/-- Python `str.isspace` characters relevant to `str.split()`
(ASCII fragment). -/
def isPySpace (c : Char) : Bool :=
  c == ' ' || c == '\t' || c == '\n' || c == '\r' || c == '\x0b' || c == '\x0c'

/-- Accumulating worker for `str.split()`: split on runs of whitespace,
dropping empty tokens. -/
def splitWsAux : List Char → List Char → List String
  | acc, [] =>
    match acc with
    | [] => []
    | _ => [String.mk acc.reverse]
  | acc, c :: rest =>
    if isPySpace c then
      match acc with
      | [] => splitWsAux [] rest
      | _ => String.mk acc.reverse :: splitWsAux [] rest
    else splitWsAux (c :: acc) rest

/-- Python `query.split()`. -/
def pySplitWs (s : String) : List String := splitWsAux [] s.data

/-- Heuristic recovery of a file name from the raw query (lines 229–242):
prefer the first quoted substring passing the simple-filename check,
else the first whitespace-delimited token containing a `.` that passes
the check. -/
def recoverFilename (query : String) : Option String :=
  match (findQuoted query.data).find? (fun q => is_simple_filename q) with
  | some q => some q
  | none =>
    (pySplitWs query).find? (fun tok => tok.data.contains '.' && is_simple_filename tok)

/-- The client's fixed list of allowed location keys. -/
def allowed_keys : List String :=
  ["docs", "downloads", "desktop", "pictures", "videos", "music"]

/-- How a show turn proceeds before any search-service call. -/
inductive ShowTurn where
  | missingName
  | rejectedName
  | invalidKey
  | searchWith (file_name : String) (base_key : Option String)
      (include_hidden : Bool)
deriving Repr, DecidableEq

/-- The show action's pre-search pipeline (lines 207–254): validate the
model-supplied file name, fall back to heuristic recovery from the raw
query, re-check for separators and glob characters, validate the key,
and only then proceed to the search-service call. -/
def showTurnPlan (file_name : Option String) (base_key : Option String)
    (include_hidden : Bool) (query : String) : ShowTurn :=
  let given := match file_name with | some s => s | none => ""
  let chosen : Option String :=
    if is_simple_filename given then some given else recoverFilename query
  match chosen with
  | none => .missingName
  | some name =>
    if name.data.any (fun c => c == '\\' || c == '/' || c == ':') ||
        name.data.any (fun c => c == '*' || c == '?' || c == '[' || c == ']') then
      .rejectedName
    else
      match base_key with
      | some k =>
        if allowed_keys.contains k then .searchWith name (some k) include_hidden
        else .invalidKey
      | none => .searchWith name none include_hidden

/-- Outcome of a show turn's exact-match resolution. -/
inductive ShowOutcome where
  | notFound (hints : List String)
  | showOne (path : String)
  | ambiguous (shown : List String) (extra : Nat)
deriving Repr, DecidableEq

/-- Exact-match filtering and disambiguation (lines 264–287): filter the
search candidates to base names case-insensitively equal to the file
name; zero matches report "not found" with up to 10 candidates as
hints, one match designates that file to be read in full, several
matches report ambiguity listing 20 with the count of the remainder. -/
def showResolve (file_name : String) (candidates : List String) : ShowOutcome :=
  let exact := candidates.filter
    (fun p => pyLower (basename p) == pyLower file_name)
  if exact.isEmpty then .notFound (candidates.take 10)
  else if exact.length > 1 then .ambiguous (exact.take 20) (exact.length - 20)
  else .showOne (exact.headD "")

/-- The non-verbose search wrapper's result handling (`call_grpc_server`,
lines 86–104): a server error (truthy `error_message`) yields an empty
candidate list indistinguishable from zero matches; otherwise the found
files are returned. -/
def call_grpc_server_files (resp : SearchResponse) : List String :=
  if !resp.error_message.data.isEmpty then [] else resp.found_files

/-- The complete show-turn data path after validation: search the server
with the file name as the pattern, silently drop any server error, then
resolve exact matches. -/
def showViaServer (table : SandboxTable) (fs : FileSystem)
    (file_name : String) (base_key : Option String)
    (include_hidden : Bool) : ShowOutcome :=
  showResolve file_name (call_grpc_server_files
    (SearchFiles table fs
      { file_pattern := file_name, base_path_key := base_key
        include_hidden := include_hidden }))

/-! ## Concrete fixtures used by closed theorems and witnesses -/

/-- The end-to-end scenario's directory tree: files `a.txt` and
`.hidden.txt`, and a subdirectory `sub` containing `b.TXT`. -/
def docTree : DirTree :=
  .node ["a.txt", ".hidden.txt"]
    (.dcons "sub" (.node ["b.TXT"] .dnil) .dnil)

/-- The end-to-end scenario's sandbox table. -/
def sandboxEx : SandboxTable := [("docs", "/home/u/Documents")]

/-- The end-to-end scenario's filesystem. -/
def fsEx : FileSystem :=
  fun r => if r = "/home/u/Documents" then docTree else .node [] .dnil

/-- A filesystem whose `docs` root contains exactly the file
`a..b.txt`. -/
def fsDots : FileSystem :=
  fun r => if r = "/home/u/Documents" then .node ["a..b.txt"] .dnil
    else .node [] .dnil

/-- The router-fallback example completion (the apostrophe is spelled
via its code point): `here's your answer:
\x7b"action":"answer","answer":"hi"\x7d thanks`. -/
def exCompletion : String :=
  "here" ++ (Char.ofNat 39).toString ++
    "s your answer: \x7b\"action\":\"answer\",\"answer\":\"hi\"\x7d thanks"

/-- Join path components with the separator. -/
def joinComps : List String → String
  | [] => ""
  | [c] => c
  | c :: rest => c ++ "/" ++ joinComps rest

/-- The condition of the pattern-safety guard in `SearchFiles`. -/
def badPattern (pattern : String) : Bool :=
  strContainsSub pattern ".." || strHeadIs pattern '/' || strHeadIs pattern '\\'

/-! ## Helper lemmas -/

/-- ASCII lowercasing is idempotent. -/
theorem charToLower_idem (c : Char) : c.toLower.toLower = c.toLower := by
  by_cases h : c.toNat ≥ 65 ∧ c.toNat ≤ 90
  · have h1 : c.toLower = Char.ofNat (c.toNat + 32) := by
      simp [Char.toLower, h]
    rw [h1]
    obtain ⟨hlo, hhi⟩ := h
    obtain ⟨n, hn⟩ : ∃ n, c.toNat = n := ⟨_, rfl⟩
    rw [hn] at hlo hhi ⊢
    interval_cases n <;> decide
  · have h1 : c.toLower = c := by simp [Char.toLower, h]
    simp [h1]

/-- Lowercasing with `pyLower` is idempotent. -/
theorem pyLower_idem (s : String) : pyLower (pyLower s) = pyLower s := by
  have h : ∀ l : List Char, (l.map Char.toLower).map Char.toLower
      = l.map Char.toLower := by
    intro l
    induction l with
    | nil => rfl
    | cons a t ih => simp only [List.map_cons, ih, charToLower_idem]
  exact congrArg String.mk (h s.data)

theorem joinComps_cons (c : String) (rest : List String) (h : rest ≠ []) :
    joinComps (c :: rest) = c ++ "/" ++ joinComps rest := by
  cases rest with
  | nil => exact absurd rfl h
  | cons d t => rfl

theorem mem_concatMap {f : α → List β} {l : List α} {b : β} :
    b ∈ concatMap f l ↔ ∃ a ∈ l, b ∈ f a := by
  induction l with
  | nil => simp [concatMap]
  | cons a t ih => simp [concatMap, List.mem_append, ih]

/-- An entry surviving the hidden filter with `include_hidden = false`
does not start with a dot. -/
theorem keepEntry_false (name : String) (h : keepEntry false name = true) :
    strHeadIs name '.' = false := by
  simpa [keepEntry] using h

mutual
/-- Every path produced by the walk is the root followed by a non-empty
chain of entry names, all of which are unhidden when
`include_hidden = false`. -/
theorem walkTree_shape (pat : String) (hid : Bool) (root : String)
    (t : DirTree) (p : String) (hp : p ∈ walkTree pat hid root t) :
    ∃ comps : List String, comps ≠ [] ∧
      p = root ++ "/" ++ joinComps comps ∧
      (hid = false → ∀ c ∈ comps, strHeadIs c '.' = false) := by
  cases t with
  | node files dirs =>
    rw [walkTree] at hp
    rcases List.mem_append.1 hp with hp1 | hp2
    · rcases List.mem_append.1 hp1 with hf | hd
      · rcases List.mem_map.1 hf with ⟨f, hfmem, rfl⟩
        rcases List.mem_filter.1 (List.mem_filter.1 hfmem).1 with ⟨-, hkeep⟩
        refine ⟨[f], by simp, rfl, ?_⟩
        rintro rfl c hc
        rcases List.mem_singleton.1 hc with rfl
        exact keepEntry_false _ hkeep
      · rcases List.mem_map.1 hd with ⟨d, hdmem, rfl⟩
        rcases List.mem_filter.1 (List.mem_filter.1 hdmem).1 with ⟨-, hkeep⟩
        refine ⟨[d], by simp, rfl, ?_⟩
        rintro rfl c hc
        rcases List.mem_singleton.1 hc with rfl
        exact keepEntry_false _ hkeep
    · exact walkSubdirs_shape pat hid root dirs p hp2

/-- List version of `walkTree_shape`. -/
theorem walkSubdirs_shape (pat : String) (hid : Bool) (root : String)
    (l : DirList) (p : String) (hp : p ∈ walkSubdirs pat hid root l) :
    ∃ comps : List String, comps ≠ [] ∧
      p = root ++ "/" ++ joinComps comps ∧
      (hid = false → ∀ c ∈ comps, strHeadIs c '.' = false) := by
  cases l with
  | dnil => rw [walkSubdirs] at hp; exact absurd hp (List.not_mem_nil p)
  | dcons d t rest =>
    rw [walkSubdirs] at hp
    rcases List.mem_append.1 hp with hp1 | hp2
    · by_cases hkeep : keepEntry hid d = true
      · rw [if_pos hkeep] at hp1
        obtain ⟨comps, hne, hshape, hhid⟩ :=
          walkTree_shape pat hid (pjoin root d) t p hp1
        refine ⟨d :: comps, by simp, ?_, ?_⟩
        · rw [joinComps_cons d comps hne, hshape, pjoin]
          simp [String.append_assoc]
        · rintro rfl c hc
          rcases List.mem_cons.1 hc with rfl | hc2
          · exact keepEntry_false _ hkeep
          · exact hhid rfl c hc2
      · rw [if_neg hkeep] at hp1
        exact absurd hp1 (List.not_mem_nil p)
    · exact walkSubdirs_shape pat hid root rest p hp2
end

theorem string_eq_empty_of_data (s : String) (h : s.data = []) : s = "" :=
  String.ext (by rw [h])

theorem data_isEmpty_false_of_ne (s : String) (h : s ≠ "") :
    s.data.isEmpty = false := by
  cases hd : s.data with
  | nil => exact absurd (string_eq_empty_of_data s hd) h
  | cons a t => rfl

theorem invalidKeyMessage_ne_empty (table : SandboxTable) :
    invalidKeyMessage table ≠ "" := by
  intro h
  have h2 := congrArg String.length h
  simp only [invalidKeyMessage, String.length_append] at h2
  have h3 : ("Invalid base path key. Allowed keys are: " : String).length = 41 := by
    decide
  have h4 : ("" : String).length = 0 := by decide
  rw [h3, h4] at h2
  omega

theorem SearchFiles_badPattern (table : SandboxTable) (fs : FileSystem)
    (req : SearchRequest) (hc : badPattern req.file_pattern = true) :
    SearchFiles table fs req =
      { found_files := [], error_message := "Invalid pattern." } := by
  rw [badPattern] at hc
  unfold SearchFiles
  simp [hc]

theorem SearchFiles_keyNone (table : SandboxTable) (fs : FileSystem)
    (req : SearchRequest) (hc : badPattern req.file_pattern = false)
    (hk : req.base_path_key = none) :
    SearchFiles table fs req =
      { found_files := globalSearch table fs req.file_pattern req.include_hidden
        error_message := "" } := by
  rw [badPattern] at hc
  unfold SearchFiles
  simp [hc, hk]

theorem SearchFiles_keyEmpty (table : SandboxTable) (fs : FileSystem)
    (req : SearchRequest) (s : String) (hc : badPattern req.file_pattern = false)
    (hk : req.base_path_key = some s) (hemp : (pyLower s).data.isEmpty = true) :
    SearchFiles table fs req =
      { found_files := globalSearch table fs req.file_pattern req.include_hidden
        error_message := "" } := by
  rw [badPattern] at hc
  unfold SearchFiles
  simp [hc, hk, hemp]

theorem SearchFiles_keyUnknown (table : SandboxTable) (fs : FileSystem)
    (req : SearchRequest) (s : String) (hc : badPattern req.file_pattern = false)
    (hk : req.base_path_key = some s) (hemp : (pyLower s).data.isEmpty = false)
    (hfind : table.find? (fun kv => kv.1 == pyLower s) = none) :
    SearchFiles table fs req =
      { found_files := [], error_message := invalidKeyMessage table } := by
  rw [badPattern] at hc
  unfold SearchFiles
  simp [hc, hk, hemp, hfind]

theorem SearchFiles_keyFound (table : SandboxTable) (fs : FileSystem)
    (req : SearchRequest) (s : String) (kv : String × String)
    (hc : badPattern req.file_pattern = false)
    (hk : req.base_path_key = some s) (hemp : (pyLower s).data.isEmpty = false)
    (hfind : table.find? (fun x => x.1 == pyLower s) = some kv) :
    SearchFiles table fs req =
      { found_files :=
          perform_search kv.2 (fs kv.2) req.file_pattern req.include_hidden
        error_message := "" } := by
  rw [badPattern] at hc
  unfold SearchFiles
  simp [hc, hk, hemp, hfind]

theorem string_empty_of_data_isEmpty (s : String) (h : s.data.isEmpty = true) :
    s = "" := by
  cases hd : s.data with
  | nil => exact string_eq_empty_of_data s hd
  | cons a t => rw [hd] at h; simp at h

/-- A file name accepted by `recoverFilename` passed the
simple-filename check. -/
theorem recover_simple (query : String) (c : String)
    (h : recoverFilename query = some c) : is_simple_filename c = true := by
  unfold recoverFilename at h
  cases hq : (findQuoted query.data).find? (fun q => is_simple_filename q) with
  | some q =>
    rw [hq] at h
    injection h with h
    subst h
    exact List.find?_some hq
  | none =>
    rw [hq] at h
    have hh := List.find?_some h
    rw [Bool.and_eq_true] at hh
    exact hh.2

/-- A simple file name has no separators and no glob metacharacters. -/
theorem simple_no_seps (c : String) (h : is_simple_filename c = true) :
    c.data.any (fun ch => ch == '\\' || ch == '/' || ch == ':') = false ∧
    c.data.any (fun ch => ch == '*' || ch == '?' || ch == '[' || ch == ']') = false := by
  unfold is_simple_filename at h
  by_cases h1 : c.data.isEmpty = true
  · rw [if_pos h1] at h; cases h
  · rw [if_neg h1] at h
    by_cases h2 : c.data.any (fun ch => ch == '\\' || ch == '/' || ch == ':') = true
    · rw [if_pos h2] at h; cases h
    · rw [if_neg h2] at h
      by_cases h3 :
          c.data.any (fun ch => ch == '*' || ch == '?' || ch == '[' || ch == ']') = true
      · rw [if_pos h3] at h; cases h
      · exact ⟨Bool.eq_false_iff.2 h2, Bool.eq_false_iff.2 h3⟩

/-! ## The claims -/

/-- Claim C1 (sandbox containment): for every search request whose
response is error-free, every path in `found_files` lies under one of
the root directories of the sandbox table; when the request names a
(truthy) location key, that entry is the one whose key equals the
lowercased request key. -/
theorem claim_C1_sandbox_containment (table : SandboxTable) (fs : FileSystem)
    (req : SearchRequest)
    (herr : (SearchFiles table fs req).error_message = "") :
    ∀ p ∈ (SearchFiles table fs req).found_files,
      ∃ kv ∈ table, (∃ rest, p = kv.2 ++ "/" ++ rest) ∧
        (∀ s, req.base_path_key = some s → pyLower s ≠ "" → kv.1 = pyLower s) := by
  intro p hp
  cases hbad : badPattern req.file_pattern with
  | true =>
    rw [SearchFiles_badPattern table fs req hbad] at herr
    exact absurd herr (by decide)
  | false =>
    cases hk : req.base_path_key with
    | none =>
      rw [SearchFiles_keyNone table fs req hbad hk] at hp
      rw [globalSearch] at hp
      obtain ⟨kv, hkv, hpw⟩ := mem_concatMap.1 hp
      unfold perform_search at hpw
      obtain ⟨comps, _, hshape, -⟩ := walkTree_shape _ _ _ _ _ hpw
      exact ⟨kv, hkv, ⟨joinComps comps, hshape⟩, by intro s hs; cases hs⟩
    | some s =>
      cases hemp : (pyLower s).data.isEmpty with
      | true =>
        rw [SearchFiles_keyEmpty table fs req s hbad hk hemp] at hp
        rw [globalSearch] at hp
        obtain ⟨kv, hkv, hpw⟩ := mem_concatMap.1 hp
        unfold perform_search at hpw
        obtain ⟨comps, _, hshape, -⟩ := walkTree_shape _ _ _ _ _ hpw
        refine ⟨kv, hkv, ⟨joinComps comps, hshape⟩, ?_⟩
        intro s' hs' hne
        injection hs' with hss
        subst hss
        exact absurd (string_empty_of_data_isEmpty _ hemp) hne
      | false =>
        cases hfind : table.find? (fun x => x.1 == pyLower s) with
        | none =>
          rw [SearchFiles_keyUnknown table fs req s hbad hk hemp hfind] at herr
          exact absurd herr (invalidKeyMessage_ne_empty table)
        | some kv =>
          rw [SearchFiles_keyFound table fs req s kv hbad hk hemp hfind] at hp
          unfold perform_search at hp
          obtain ⟨comps, _, hshape, -⟩ := walkTree_shape _ _ _ _ _ hp
          refine ⟨kv, List.mem_of_find?_eq_some hfind,
            ⟨joinComps comps, hshape⟩, ?_⟩
          intro s' hs' _
          injection hs' with hss
          subst hss
          have hb := List.find?_some hfind
          simp only [beq_iff_eq] at hb
          exact hb

/-- Witness for C1: in the end-to-end fixture, the returned path
`/home/u/Documents/sub/b.TXT` lies under the `docs` root. -/
theorem claim_C1_sandbox_containment_witness :
    ∃ kv ∈ sandboxEx,
      (∃ rest, "/home/u/Documents/sub/b.TXT" = kv.2 ++ "/" ++ rest) ∧
      (∀ s, (some "docs" : Option String) = some s → pyLower s ≠ "" →
        kv.1 = pyLower s) :=
  claim_C1_sandbox_containment sandboxEx fsEx
    { file_pattern := "*.txt", base_path_key := some "docs", include_hidden := false }
    (by decide) "/home/u/Documents/sub/b.TXT" (by decide)

/-- Claim C2 (pattern safety, first-failure-wins): any request whose
pattern contains `..` or begins with `/` or `\` is answered with
`error_message = "Invalid pattern."` and empty `found_files`, for every
table, filesystem and `base_path_key` — the pattern check short-circuits
the key check and any walk. -/
theorem claim_C2_invalid_pattern (table : SandboxTable) (fs : FileSystem)
    (req : SearchRequest)
    (h : strContainsSub req.file_pattern ".." = true ∨
      strHeadIs req.file_pattern '/' = true ∨
      strHeadIs req.file_pattern '\\' = true) :
    SearchFiles table fs req =
      { found_files := [], error_message := "Invalid pattern." } := by
  apply SearchFiles_badPattern
  rw [badPattern]
  rcases h with h | h | h <;> simp [h]

/-- Witness for C2: pattern `../a` is rejected even alongside an
unknown location key. -/
theorem claim_C2_invalid_pattern_witness :
    strContainsSub "../a" ".." = true ∧
    SearchFiles sandboxEx fsEx
      { file_pattern := "../a", base_path_key := some "nope"
        include_hidden := true } =
      { found_files := [], error_message := "Invalid pattern." } :=
  ⟨by decide, claim_C2_invalid_pattern sandboxEx fsEx _ (Or.inl (by decide))⟩

/-- Counterexample to claim C3 as stated: the request's `base_path_key`
field is set to `""`, a string whose lowercase normalization is not a
key of the sandbox table and whose pattern passes the safety check, yet
the response's error message is empty (the code's truthiness test sends
a present-but-empty key down the global-search branch instead of the
unknown-key branch). -/
theorem claim_C3_counterexample :
    ((sandboxEx.map Prod.fst).contains (pyLower "") = false) ∧
    badPattern "x" = false ∧
    (SearchFiles sandboxEx fsEx
      { file_pattern := "x", base_path_key := some ""
        include_hidden := false }).error_message = "" := by
  decide

/-- Claim C3, amended (unknown location key): for every request whose
pattern passes the safety check and whose `base_path_key` is set to a
string whose lowercase normalization is non-empty and is not a key of
the sandbox table, the response carries the key-enumerating error
message (which is non-empty) and empty `found_files`. -/
theorem claim_C3_unknown_key (table : SandboxTable) (fs : FileSystem)
    (req : SearchRequest) (s : String)
    (hkey : req.base_path_key = some s)
    (hs : pyLower s ≠ "")
    (hgood : badPattern req.file_pattern = false)
    (habs : ∀ kv ∈ table, kv.1 ≠ pyLower s) :
    (SearchFiles table fs req).error_message = invalidKeyMessage table ∧
    (SearchFiles table fs req).error_message ≠ "" ∧
    (SearchFiles table fs req).found_files = [] := by
  have hfind : table.find? (fun kv => kv.1 == pyLower s) = none := by
    rw [List.find?_eq_none]
    intro kv hkv
    simpa using habs kv hkv
  have hemp := data_isEmpty_false_of_ne _ hs
  rw [SearchFiles_keyUnknown table fs req s hgood hkey hemp hfind]
  exact ⟨rfl, invalidKeyMessage_ne_empty table, rfl⟩

/-- Witness for C3 (amended): key `NOPE` produces the enumerating
error and no results. -/
theorem claim_C3_unknown_key_witness :
    (SearchFiles sandboxEx fsEx
      { file_pattern := "x", base_path_key := some "NOPE"
        include_hidden := false }).error_message = invalidKeyMessage sandboxEx ∧
    (SearchFiles sandboxEx fsEx
      { file_pattern := "x", base_path_key := some "NOPE"
        include_hidden := false }).error_message ≠ "" ∧
    (SearchFiles sandboxEx fsEx
      { file_pattern := "x", base_path_key := some "NOPE"
        include_hidden := false }).found_files = [] :=
  claim_C3_unknown_key sandboxEx fsEx _ "NOPE" rfl (by decide) (by decide)
    (by decide)

/-- Claim C4 (hidden-entry pruning): with `include_hidden = false`,
every result of the walk decomposes as the root followed by a non-empty
chain of path components none of which starts with `.` — in particular
no descendant of a hidden directory ever appears, because the hidden
component would occur in the chain (hidden directories are pruned
before descending). -/
theorem claim_C4_hidden_pruning (root : String) (t : DirTree) (pat p : String)
    (hp : p ∈ perform_search root t pat false) :
    ∃ comps : List String, comps ≠ [] ∧
      p = root ++ "/" ++ joinComps comps ∧
      ∀ c ∈ comps, strHeadIs c '.' = false := by
  unfold perform_search at hp
  obtain ⟨comps, hne, hshape, hhid⟩ := walkTree_shape pat false root t p hp
  exact ⟨comps, hne, hshape, hhid rfl⟩

/-- Witness for C4: the nested match from the fixture tree decomposes
into unhidden components. -/
theorem claim_C4_hidden_pruning_witness :
    ∃ comps : List String, comps ≠ [] ∧
      "/home/u/Documents/sub/b.TXT" = "/home/u/Documents" ++ "/" ++ joinComps comps ∧
      ∀ c ∈ comps, strHeadIs c '.' = false :=
  claim_C4_hidden_pruning "/home/u/Documents" docTree "*.txt"
    "/home/u/Documents/sub/b.TXT" (by decide)

/-- Claim C5 (total case-insensitivity): the engine's match relation is
invariant under lowercasing both the pattern and the candidate name,
because both sides are lowercased before the glob comparison; the same
relation is applied to file names and directory names alike. -/
theorem claim_C5_case_insensitive (p n : String) :
    engineMatch p n = engineMatch (pyLower p) (pyLower n) := by
  unfold engineMatch
  rw [pyLower_idem, pyLower_idem]

/-- Claim C6 (router fallback cascade): a completion that parses as
JSON is taken whole; the fixture completion with surrounding prose
parses via brace extraction to the plan whose answer is `hi`; a
completion with no parsable JSON falls back to an answer plan carrying
the raw text.  `parsePlan` is a total function: it never raises. -/
theorem claim_C6_router_fallback :
    (∀ s j, json_loads s = some j → parsePlan s = j) ∧
    parsePlan exCompletion =
      Json.obj [("action", Json.str "answer"), ("answer", Json.str "hi")] ∧
    parsePlan "not json at all" = answerPlan "not json at all" := by
  refine ⟨?_, rfl, rfl⟩
  intro s j h
  unfold parsePlan
  rw [h]

/-- Witness for C6: a completion that is already strict JSON is parsed
by the first cascade step. -/
theorem claim_C6_router_fallback_witness : parsePlan "true" = Json.bool true :=
  claim_C6_router_fallback.1 "true" (Json.bool true) rfl

/-- Claim C7 (show exact-match filter and outcome trichotomy):
candidates are filtered to base names case-insensitively equal to the
file name; zero exact matches report not-found with up to 10 loose
candidates as hints, exactly one match designates that file for
reading, two or more matches report ambiguity listing up to 20 with the
count of the remainder and read nothing; the loose candidate
`README.md.bak` is not an exact match for `README.md`. -/
theorem claim_C7_show_trichotomy (name : String) (candidates : List String) :
    (candidates.filter (fun p => pyLower (basename p) == pyLower name) = [] →
      showResolve name candidates = .notFound (candidates.take 10)) ∧
    (∀ t, candidates.filter (fun p => pyLower (basename p) == pyLower name) = [t] →
      showResolve name candidates = .showOne t) ∧
    (2 ≤ (candidates.filter (fun p => pyLower (basename p) == pyLower name)).length →
      showResolve name candidates =
        .ambiguous
          ((candidates.filter (fun p => pyLower (basename p) == pyLower name)).take 20)
          ((candidates.filter (fun p => pyLower (basename p) == pyLower name)).length - 20)) ∧
    (pyLower (basename "/docs/README.md.bak") == pyLower "README.md") = false := by
  refine ⟨?_, ?_, ?_, by decide⟩
  · intro h
    unfold showResolve
    simp [h]
  · intro t h
    unfold showResolve
    simp [h]
  · intro h
    have h1 : (candidates.filter
        (fun p => pyLower (basename p) == pyLower name)).isEmpty = false := by
      cases hx : candidates.filter (fun p => pyLower (basename p) == pyLower name) with
      | nil => rw [hx] at h; simp at h
      | cons a t => rfl
    have h2 : (candidates.filter
        (fun p => pyLower (basename p) == pyLower name)).length > 1 := h
    unfold showResolve
    simp [h1, h2]

/-- Witness for C7: two roots holding `README.md` yield the ambiguity
outcome listing both, with no remainder count. -/
theorem claim_C7_show_trichotomy_witness :
    showResolve "README.md" ["/docs/a/README.md", "/docs/b/README.md"] =
      .ambiguous ["/docs/a/README.md", "/docs/b/README.md"] 0 :=
  (claim_C7_show_trichotomy "README.md"
    ["/docs/a/README.md", "/docs/b/README.md"]).2.2.1 (by decide)

/-- Claim C8 (show filename heuristic recovery): when the model's file
name fails the simple-filename check, the recovery scans the raw query:
the first quoted substring passing the check wins, else the first
whitespace token containing a `.` that passes the check; when recovery
finds nothing the turn is `missingName` (before any search-service
call), and when it finds a candidate the turn proceeds to search with
exactly that candidate. -/
theorem claim_C8_filename_recovery (file_name : Option String)
    (base_key : Option String) (hid : Bool) (query : String)
    (hbad : is_simple_filename
      (match file_name with | some s => s | none => "") = false) :
    (recoverFilename query = none →
      showTurnPlan file_name base_key hid query = .missingName) ∧
    (∀ q, (findQuoted query.data).find? (fun q => is_simple_filename q) = some q →
      recoverFilename query = some q) ∧
    ((findQuoted query.data).find? (fun q => is_simple_filename q) = none →
      recoverFilename query =
        (pySplitWs query).find?
          (fun tok => tok.data.contains '.' && is_simple_filename tok)) ∧
    (∀ c, recoverFilename query = some c →
      showTurnPlan file_name none hid query = .searchWith c none hid) := by
  refine ⟨?_, ?_, ?_, ?_⟩
  · intro h
    unfold showTurnPlan
    simp [hbad, h]
  · intro q h
    unfold recoverFilename
    rw [h]
  · intro h
    unfold recoverFilename
    rw [h]
  · intro c h
    have hsimple := recover_simple query c h
    obtain ⟨hsep, hglob⟩ := simple_no_seps c hsimple
    unfold showTurnPlan
    simp [hbad, h, hsep, hglob]

/-- Witness for C8: a rejected model file name `a/b` recovers
`notes.txt` from the query's tokens, and an unrecoverable query yields
`missingName`. -/
theorem claim_C8_filename_recovery_witness :
    showTurnPlan (some "a/b") none false "please show notes.txt now" =
      .searchWith "notes.txt" none false ∧
    showTurnPlan (some "a/b") (some "docs") true "no file here" =
      .missingName :=
  ⟨(claim_C8_filename_recovery (some "a/b") none false
      "please show notes.txt now" (by decide)).2.2.2 "notes.txt" (by decide),
    (claim_C8_filename_recovery (some "a/b") (some "docs") true
      "no file here" (by decide)).1 (by decide)⟩

/-- Claim C9 (end-to-end scenario): with the `docs` table mapping to
`/home/u/Documents`, a tree holding `a.txt`, `.hidden.txt` and
`sub/b.TXT`, the request `(*.txt, docs, include_hidden = false)` finds
exactly the unhidden root file and the case-insensitively matched
`sub/b.TXT`, in that order, with no error. -/
theorem claim_C9_end_to_end :
    SearchFiles sandboxEx fsEx
      { file_pattern := "*.txt", base_path_key := some "docs"
        include_hidden := false } =
      { found_files := ["/home/u/Documents/a.txt", "/home/u/Documents/sub/b.TXT"]
        error_message := "" } := rfl

/-- Claim C10 (server error masked on show): a show file name containing
`..` passes the client's simple-filename check, is rejected by the
server's pattern guard, whose error the non-verbose wrapper converts
into an empty candidate list, so the user sees a bare not-found outcome
with no hints — for every table and filesystem, even one that holds a
file of exactly that name. -/
theorem claim_C10_dotdot_masked (table : SandboxTable) (fs : FileSystem)
    (name : String) (base_key : Option String) (hid : Bool)
    (hdots : strContainsSub name ".." = true)
    (_hsimple : is_simple_filename name = true) :
    showViaServer table fs name base_key hid = .notFound [] := by
  unfold showViaServer
  rw [SearchFiles_badPattern table fs _ (by rw [badPattern]; simp [hdots])]
  rfl

/-- Witness for C10: `a..b.txt` exists under the `docs` root (the walk
would find it), passes the simple-filename check, yet the show turn
reports a bare not-found. -/
theorem claim_C10_dotdot_masked_witness :
    strContainsSub "a..b.txt" ".." = true ∧
    is_simple_filename "a..b.txt" = true ∧
    perform_search "/home/u/Documents" (fsDots "/home/u/Documents")
      "a..b.txt" false = ["/home/u/Documents/a..b.txt"] ∧
    showViaServer sandboxEx fsDots "a..b.txt" none false = .notFound [] :=
  ⟨by decide, by decide, by decide,
    claim_C10_dotdot_masked sandboxEx fsDots "a..b.txt" none false
      (by decide) (by decide)⟩

end MCPFM
